import Mathlib

/-!
Verification development for the Court-Fetcher web utility (src/Court Fetcher/app.py).
The file shallowly embeds the field extractor (parse_case_details), the browser
client (fetch_case_data), the request handlers (search_case, download_pdf,
get_history) and the log store, and settles the frozen claims about them.

Text handling works on List Char; machine strings convert via String.toList.
-/

/-- Whitespace as recognized by the Python str.strip and the regex class
for spaces, restricted to the ASCII range used by the pages in question. -/
def pyIsSpace (c : Char) : Bool :=
  c = ' ' || c = '\t' || c = '\n' || c = '\r' || c = '\x0b' || c = '\x0c'

/-- Python str.strip on a character list: drop whitespace on both ends. -/
def pyStrip (l : List Char) : List Char :=
  ((l.dropWhile pyIsSpace).reverse.dropWhile pyIsSpace).reverse

/-- Lowercasing a character list, modelling str.lower and the re.I flag on
the ASCII text these heuristics target. -/
def lowerL (l : List Char) : List Char := l.map Char.toLower

/-- Does the pattern occur at the head of the list. -/
def headMatches : List Char → List Char → Bool
  | [], _ => true
  | _ :: _, [] => false
  | a :: pa, b :: lb => a == b && headMatches pa lb

/-- Does the pattern occur as a contiguous run anywhere in the list.  This is
the substring test underlying the regex searches and the Python in operator. -/
def containsSeq (pat : List Char) : List Char → Bool
  | [] => headMatches pat []
  | l@(_ :: rest) => headMatches pat l || containsSeq pat rest

/-- Match of the party filter regex (search of vs with optional dot, or v/s,
under re.I): the lowered text holds vs or v/s as a substring. -/
def vsTextMatch (l : List Char) : Bool :=
  containsSeq "vs".toList (lowerL l) || containsSeq "v/s".toList (lowerL l)

/-! Splitting on the party separator regex, with the greedy backtracking
order of the Python engine made explicit. The pattern alternates a branch
of whitespace, v, optional s, optional dot, whitespace with a branch of
whitespace, v/s, whitespace, case-insensitively. -/

/-- Required run of at least one whitespace character; greedy, and final in
both branches of the separator pattern, so the maximal run is taken. -/
def needWs : List Char → Option (List Char)
  | c :: rest => if pyIsSpace c then some (rest.dropWhile pyIsSpace) else none
  | [] => none

/-- Optional literal dot followed by required whitespace, in greedy order:
the branch consuming the dot is tried first. -/
def afterOptDot (l : List Char) : Option (List Char) :=
  (match l with
   | '.' :: r => needWs r
   | _ => none) <|> needWs l

/-- First alternation branch after the leading whitespace: v, optional s,
optional dot, whitespace.  The branch consuming s is tried first. -/
def sepBranchA : List Char → Option (List Char)
  | c :: r1 =>
    if c.toLower = 'v' then
      match r1 with
      | c2 :: r2 =>
        if c2.toLower = 's' then afterOptDot r2 <|> afterOptDot r1
        else afterOptDot r1
      | [] => afterOptDot r1
    else none
  | [] => none

/-- Second alternation branch after the leading whitespace: v, slash, s,
then whitespace. -/
def sepBranchB : List Char → Option (List Char)
  | c1 :: '/' :: c3 :: r =>
    if c1.toLower = 'v' && c3.toLower = 's' then needWs r else none
  | _ => none

/-- Match of the full separator pattern at the head of the list, returning
the remainder after the match.  Both branches open with required whitespace
and then expect v, so the maximal whitespace run is the one the greedy
engine settles on. -/
def matchSepFrom : List Char → Option (List Char)
  | c :: rest =>
    if pyIsSpace c then
      let r := rest.dropWhile pyIsSpace
      sepBranchA r <|> sepBranchB r
    else none
  | [] => none

/-- Scanning loop of re.split for the separator pattern: leftmost matches,
non-overlapping, segments between them collected in order.  Every separator
match consumes at least three characters, so fuel equal to the length of
the input plus one never runs out. -/
def splitVsAux : Nat → List Char → List Char → List (List Char)
  | 0, acc, _ => [acc.reverse]
  | _ + 1, acc, [] => [acc.reverse]
  | fuel + 1, acc, c :: rest =>
    match matchSepFrom (c :: rest) with
    | some r => acc.reverse :: splitVsAux fuel [] r
    | none => splitVsAux fuel (c :: acc) rest

/-- Full re.split on the party separator family. -/
def splitVs (l : List Char) : List (List Char) :=
  splitVsAux (l.length + 1) [] l

/-! Date token scanning: the pattern is a word boundary, one or two digits,
a dash or slash, one or two digits, a dash or slash, two to four digits,
and a word boundary, searched with re.findall. -/

/-- Word characters of the regex word-boundary assertion, ASCII model. -/
def isWordChar (c : Char) : Bool := c.isAlphanum || c = '_'

/-- Word test lifted to the optional character just outside the match. -/
def isWordO : Option Char → Bool
  | none => false
  | some c => isWordChar c

/-- Exactly k digits from the head of the list. -/
def takeDigits (k : Nat) (l : List Char) : Option (List Char × List Char) :=
  let t := l.take k
  if t.length = k && t.all (·.isDigit) then some (t, l.drop k) else none

/-- Dash or slash separator of the date pattern. -/
def dateSepChar (c : Char) : Bool := c = '-' || c = '/'

/-- One attempt at the date pattern with fixed day, month and year widths,
including the trailing word boundary (the character after the final digit,
if any, must not be a word character). -/
def tryCombo (dk mk yk : Nat) (l : List Char) : Option (List Char × List Char) :=
  match takeDigits dk l with
  | none => none
  | some (d, r1) =>
    match r1 with
    | c1 :: r2 =>
      if dateSepChar c1 then
        match takeDigits mk r2 with
        | none => none
        | some (m, r3) =>
          match r3 with
          | c2 :: r4 =>
            if dateSepChar c2 then
              match takeDigits yk r4 with
              | none => none
              | some (y, r5) =>
                if isWordO r5.head? then none
                else some (d ++ c1 :: (m ++ c2 :: y), r5)
            else none
          | [] => none
      else none
    | [] => none

/-- Match of the date pattern at the current position.  The leading word
boundary holds exactly when the previous character is not a word character,
since the first matched character is a digit.  The greedy quantifiers are
expanded into the twelve width combinations in backtracking order. -/
def matchDateFrom (prev : Option Char) (l : List Char) : Option (List Char × List Char) :=
  if isWordO prev then none
  else
    tryCombo 2 2 4 l <|> tryCombo 2 2 3 l <|> tryCombo 2 2 2 l <|>
    tryCombo 2 1 4 l <|> tryCombo 2 1 3 l <|> tryCombo 2 1 2 l <|>
    tryCombo 1 2 4 l <|> tryCombo 1 2 3 l <|> tryCombo 1 2 2 l <|>
    tryCombo 1 1 4 l <|> tryCombo 1 1 3 l <|> tryCombo 1 1 2 l

/-- Scanning loop of re.findall for the date pattern: leftmost matches in
order, non-overlapping, advancing one character when no match starts at the
current position.  Matches are at least five characters long, so fuel equal
to the length of the input plus one never runs out. -/
def scanDates : Nat → Option Char → List Char → List (List Char)
  | 0, _, _ => []
  | _ + 1, _, [] => []
  | fuel + 1, prev, c :: rest =>
    match matchDateFrom prev (c :: rest) with
    | some (tok, r) => tok :: scanDates fuel tok.getLast? r
    | none => scanDates fuel (some c) rest

/-- Full re.findall of the date pattern over a text. -/
def findDates (l : List Char) : List (List Char) :=
  scanDates (l.length + 1) none l

/-! Document model: the HTML tree that BeautifulSoup hands to the extractor.
A node is a text run or an element with a tag, attributes and children; the
soup object itself is the root element. -/

inductive Node where
  | text : String → Node
  | elem : String → List (String × String) → List Node → Node

mutual
/-- Raw visible text of a subtree: get_text with no separator and no
stripping, the concatenation of all descendant text runs in order. -/
def rawText : Node → List Char
  | .text s => s.toList
  | .elem _ _ cs => rawTextList cs

def rawTextList : List Node → List Char
  | [] => []
  | c :: r => rawText c ++ rawTextList r
end

mutual
/-- Stripped text of a subtree: get_text with strip set and no separator,
each descendant text run stripped and then concatenated. -/
def strippedText : Node → List Char
  | .text s => pyStrip s.toList
  | .elem _ _ cs => strippedTextList cs

def strippedTextList : List Node → List Char
  | [] => []
  | c :: r => strippedText c ++ strippedTextList r
end

/-- The string property of a node: a text run is its own string; an element
with a single child takes the string of that child; any other element has
none. -/
def nodeString : Node → Option String
  | .text s => some s
  | .elem _ _ [c] => nodeString c
  | .elem _ _ _ => none

mutual
/-- All descendants of a node paired with their parents, in document order:
each child appears before its own subtree, as find_all traverses them. -/
def descendantsP : Node → List (Node × Node)
  | .text _ => []
  | .elem t a cs => descendantsPList (.elem t a cs) cs

def descendantsPList (p : Node) : List Node → List (Node × Node)
  | [] => []
  | c :: r => (c, p) :: (descendantsP c ++ descendantsPList p r)
end

/-- Truthiness of a page element in a boolean test: an element is truthy
when it has children, a text run when it is non-empty. -/
def nodeTruthy : Node → Bool
  | .text s => !(s == "")
  | .elem _ _ cs => !cs.isEmpty

/-- Filter of the party search find_all: a td or div element whose string
matches the separator regex. -/
def isCandElem (n : Node) : Bool :=
  match n with
  | .elem t _ _ =>
    (t == "td" || t == "div") &&
    (match nodeString n with
     | some s => vsTextMatch s.toList
     | none => false)
  | .text _ => false

/-- The elements the party loop visits, with their parents, in document
order. -/
def partyElems (root : Node) : List (Node × Node) :=
  (descendantsP root).filter (fun p => isCandElem p.1)

/-- The party loop: for the first candidate whose parent is truthy and
whose parent text holds vs or v/s, split that text on the separator family,
strip the pieces, keep the non-empty ones, and stop. -/
def partyLoop : List (Node × Node) → List String
  | [] => []
  | (_, par) :: rest =>
    if nodeTruthy par then
      let t := strippedText par
      if containsSeq "vs".toList (lowerL t) || containsSeq "v/s".toList (lowerL t) then
        (splitVs t).filterMap
          (fun p => let q := pyStrip p; if q.isEmpty then none else some (String.mk q))
      else partyLoop rest
    else partyLoop rest

/-- Party extraction of the field extractor. -/
def partiesOf (root : Node) : List String := partyLoop (partyElems root)

/-- Date tokens of the full visible text, as strings. -/
def datesS (root : Node) : List String :=
  (findDates (rawText root)).map (fun cs => String.mk cs)

/-- First attribute value under a key, as the attribute lookup returns. -/
def attrGet (attrs : List (String × String)) (k : String) : Option String :=
  (attrs.find? (fun kv => kv.1 == k)).map (fun kv => kv.2)

/-- Match of the pdf link regex: search of a literal dot, p, d, f anchored
at the end under re.I.  The dollar anchor also matches just before a single
final newline. -/
def pdfHrefMatch (v : String) : Bool :=
  let l := v.toList
  let t := if l.getLast? = some '\n' then l.dropLast else l
  headMatches "fdp.".toList (lowerL t).reverse

/-- Filter of the order search find_all: an anchor element whose href
attribute is present and matches the pdf regex. -/
def isPdfLink (n : Node) : Bool :=
  match n with
  | .elem t attrs _ =>
    (t == "a") &&
    (match attrGet attrs "href" with
     | some v => pdfHrefMatch v
     | none => false)
  | .text _ => false

/-- The anchor elements the order loop visits, in document order. -/
def pdfLinkElems (root : Node) : List Node :=
  ((descendantsP root).map (fun p => p.1)).filter isPdfLink

/-- The base address of the fetcher object. -/
def baseUrl : String := "https://delhihighcourt.nic.in"

/-- Does the string open with a scheme followed by a colon: a letter and
then letters, digits, plus, minus or dot before the first colon. -/
def hasScheme (u : String) : Bool :=
  match u.toList.takeWhile (fun c => c ≠ ':') with
  | [] => false
  | c :: r =>
    c.isAlpha && r.all (fun d => d.isAlphanum || d = '+' || d = '-' || d = '.') &&
    (u.toList.contains ':')

/-- Resolution of a link target against the fixed base address, modelling
urljoin for the base the fetcher uses: absolute targets pass through,
scheme-relative targets take the https scheme, root-relative targets join
the host, and the rest join under the host root since the base has an
empty path. -/
def pyUrljoin (rel : String) : String :=
  if hasScheme rel then rel
  else if "//".toList.isPrefixOf rel.toList then "https:" ++ rel
  else if rel.toList.head? = some '/' then baseUrl ++ rel
  else baseUrl ++ "/" ++ rel

/-- One order entry of the extraction result; the date slot is always left
empty by this version of the extractor. -/
structure OrderEntry where
  title : String
  url : String
  date : Option String
deriving DecidableEq, Repr

/-- Order extraction: each matching anchor with a truthy href becomes an
entry whose address is resolved against the base and whose title is the
stripped link text, with a generic fallback when that text is empty. -/
def ordersOf (root : Node) : List OrderEntry :=
  (pdfLinkElems root).filterMap (fun n =>
    match n with
    | .elem _ attrs _ =>
      match attrGet attrs "href" with
      | some h =>
        if h == "" then none
        else some
          { title := let t := String.mk (strippedText n)
                     if t == "" then "Order Document" else t
            url := pyUrljoin h
            date := none }
      | none => none
    | .text _ => none)

/-- The structured extraction result, one slot per field the parser fills. -/
structure CaseData where
  parties : List String
  filing_date : Option String
  next_hearing_date : Option String
  orders : List OrderEntry
  status : String
deriving DecidableEq, Repr

/-- The field extractor parse_case_details: party list from the first
separator match, filing date from the first date token, next hearing date
from the last token when at least two exist, order entries from the pdf
anchors, and the constant Active status. -/
def parse_case_details (root : Node) : CaseData :=
  let dates := datesS root
  { parties := partiesOf root
    filing_date := dates.head?
    next_hearing_date := if dates.length > 1 then dates.getLast? else none
    orders := ordersOf root
    status := "Active" }

/-! Browser client and request handlers. -/

/-- Outcome value of fetch_case_data as the handler sees it: either the
parsed record or a dictionary with the single error key. -/
inductive FetchResult where
  | ok : CaseData → FetchResult
  | err : String → FetchResult
deriving DecidableEq, Repr

/-- Test of the Python membership check of the error key in the returned
dictionary: the parsed record carries no error key, the error value does. -/
def fetchHasErrorKey : FetchResult → Bool
  | .ok _ => false
  | .err _ => true

/-- Environment of one browser session: whether the driver constructs, the
outcomes of the scripted steps (each either passing or raising with a
message), whether a captcha control is present (logged and ignored), and
the rendered page the automation ends on. -/
structure BrowserEnv where
  setupOk : Bool
  navigation : Except String Unit
  formFill : Except String Unit
  captchaPresent : Bool
  submit : Except String Unit
  pageSource : Node

/-- Observable outcome of fetch_case_data: the returned value plus the
resource facts the safety claim is about — whether a driver was built,
whether navigation was reached, and whether the driver was shut down. -/
structure FetchOutcome where
  result : FetchResult
  driverCreated : Bool
  navigated : Bool
  driverQuit : Bool

/-- The browser client fetch_case_data: a failed driver construction short
circuits with the fixed error before any navigation; otherwise the scripted
steps run inside the protected region, any raised step converts to an error
value, the rendered page goes through the field extractor, and the final
clause shuts the driver down on every path out of the region. -/
def fetch_case_data (env : BrowserEnv) : FetchOutcome :=
  if !env.setupOk then
    { result := .err "Failed to initialize browser"
      driverCreated := false, navigated := false, driverQuit := false }
  else
    match env.navigation, env.formFill, env.submit with
    | .error m, _, _ =>
      { result := .err m, driverCreated := true, navigated := true, driverQuit := true }
    | .ok _, .error m, _ =>
      { result := .err m, driverCreated := true, navigated := true, driverQuit := true }
    | .ok _, .ok _, .error m =>
      { result := .err m, driverCreated := true, navigated := true, driverQuit := true }
    | .ok _, .ok _, .ok _ =>
      { result := .ok (parse_case_details env.pageSource)
        driverCreated := true, navigated := true, driverQuit := true }

/-- A lookup request as the handler reads it from the JSON body: each field
either absent or a string. -/
structure SearchRequest where
  case_type : Option String
  case_number : Option String
  filing_year : Option String

/-- Truthiness of an optional string field, as the all builtin tests it:
absent and empty both count as missing. -/
def pyTruthy : Option String → Bool
  | none => false
  | some s => !(s == "")

/-- One row as save_query_to_db inserts it: the caller fields, the raw
response text, the value serialized into parsed_data, and the outcome
status. -/
structure QueryWrite where
  case_type : String
  case_number : String
  filing_year : String
  raw_response : String
  parsed_data : FetchResult
  status : String
deriving DecidableEq, Repr

/-- Body of a search response: the jsonified fetch value on the main path,
or a standalone error object on the validation path. -/
inductive SearchBody where
  | json : FetchResult → SearchBody
  | errJson : String → SearchBody
deriving DecidableEq, Repr

/-- Does the response body carry an error object with a message. -/
def isErrorBody : SearchBody → Bool
  | .errJson _ => true
  | .json (.err _) => true
  | .json (.ok _) => false

/-- Observable outcome of the search handler: status code, body, the rows
written to the log store, and whether browser automation was invoked. -/
structure SearchOutcome where
  httpStatus : Nat
  body : SearchBody
  logWrites : List QueryWrite
  browserUsed : Bool
deriving DecidableEq, Repr

/-- The search handler search_case over a request and the value the fetch
returns when invoked: missing or empty fields short circuit with a 400
error object, no automation and no write; otherwise one row is written
whose status reflects the presence of the error key, with an empty raw
response, and the fetch value is jsonified with the default 200 code. -/
def search_case (req : SearchRequest) (fetch : FetchResult) : SearchOutcome :=
  if pyTruthy req.case_type && pyTruthy req.case_number && pyTruthy req.filing_year then
    let ct := req.case_type.getD ""
    let cn := req.case_number.getD ""
    let fy := req.filing_year.getD ""
    let status := if fetchHasErrorKey fetch then "error" else "success"
    { httpStatus := 200
      body := .json fetch
      logWrites := [{ case_type := ct, case_number := cn, filing_year := fy
                      raw_response := "", parsed_data := fetch, status := status }]
      browserUsed := true }
  else
    { httpStatus := 400, body := .errJson "All fields are required"
      logWrites := [], browserUsed := false }

/-! Document relay. -/

/-- The remote answer to the streaming fetch of the relay. -/
structure RemoteResponse where
  status_code : Nat
  content : List Nat

/-- Body of a relay response: an error object, or an attachment with its
download name and the relayed bytes. -/
inductive DownloadBody where
  | errJson : String → DownloadBody
  | attachment : String → List Nat → DownloadBody
deriving DecidableEq, Repr

/-- Does the relay response carry an error object. -/
def isDownloadErr : DownloadBody → Bool
  | .errJson _ => true
  | .attachment _ _ => false

/-- Observable outcome of the relay handler, including the log rows it
writes (it touches the store on no path). -/
structure DownloadOutcome where
  httpStatus : Nat
  body : DownloadBody
  logWrites : List QueryWrite
deriving DecidableEq, Repr

/-- Path component of urlparse on the request url: the fragment and query
are cut off, a leading scheme prefix is removed, and a network location
introduced by a double slash runs to the next slash. -/
def pyUrlparsePath (u : String) : String :=
  let l := (u.toList.takeWhile (fun c => c ≠ '#')).takeWhile (fun c => c ≠ '?')
  let l := if hasScheme (String.mk l) then (l.dropWhile (fun c => c ≠ ':')).drop 1 else l
  let l := if "//".toList.isPrefixOf l then ((l.drop 2).dropWhile (fun c => c ≠ '/')) else l
  String.mk l

/-- Final path segment, as os.path.basename takes it: everything after the
last slash. -/
def pyBasename (p : String) : String :=
  String.mk ((p.toList.reverse.takeWhile (fun c => c ≠ '/')).reverse)

/-- Download name the relay derives from the url: the base name of the
parsed path, with the generic fallback when that is empty. -/
def relayFilename (u : String) : String :=
  let b := pyBasename (pyUrlparsePath u)
  if b == "" then "document.pdf" else b

/-- The relay handler download_pdf over the optional url parameter and the
remote answer: a missing or empty parameter gives a 400 error object; a
remote status of 200 streams the body back as an attachment named from the
url path; any other remote status gives a 400 error object.  No path
writes to the log store. -/
def download_pdf (urlParam : Option String) (remote : RemoteResponse) : DownloadOutcome :=
  match urlParam with
  | none => { httpStatus := 400, body := .errJson "PDF URL required", logWrites := [] }
  | some u =>
    if u == "" then
      { httpStatus := 400, body := .errJson "PDF URL required", logWrites := [] }
    else if remote.status_code = 200 then
      { httpStatus := 200, body := .attachment (relayFilename u) remote.content
        logWrites := [] }
    else
      { httpStatus := 400, body := .errJson "Failed to download PDF", logWrites := [] }

/-! Log store and the history handler. -/

/-- One stored row of the queries table: the identifier the store assigns
monotonically, the caller fields, the store-assigned timestamp (drawn from
a totally ordered clock), and the payload columns. -/
structure StoredQuery where
  id : Nat
  case_type : String
  case_number : String
  filing_year : String
  query_timestamp : Nat
  raw_response : String
  parsed_data : String
  status : String
deriving DecidableEq, Repr

/-- One summary entry of the history listing: exactly the five selected
columns. -/
structure HistEntry where
  case_type : String
  case_number : String
  filing_year : String
  timestamp : Nat
  status : String
deriving DecidableEq, Repr

/-- Projection of a stored row to its history summary. -/
def histProj (r : StoredQuery) : HistEntry :=
  { case_type := r.case_type, case_number := r.case_number
    filing_year := r.filing_year, timestamp := r.query_timestamp
    status := r.status }

/-- Sortedness by timestamp descending, the only ordering the query names. -/
def tsSorted (l : List StoredQuery) : Prop :=
  l.Pairwise (fun a b => b.query_timestamp ≤ a.query_timestamp)

/-- The history query over a table state: select the five columns, order by
timestamp descending, limit 50.  The order-by clause fixes no relative
order of rows with equal timestamps, so the result is any projection of a
reordering of the table that is sorted by timestamp descending, cut to the
first fifty rows. -/
def get_history (db : List StoredQuery) (out : List HistEntry) : Prop :=
  ∃ ord : List StoredQuery, ord.Perm db ∧ tsSorted ord ∧ out = (ord.take 50).map histProj

/-- Ordering the claim about the history listing asserts: timestamp
descending with ties among equal timestamps broken by identifier
descending. -/
def idTieOrdered (l : List StoredQuery) : Prop :=
  l.Pairwise (fun a b =>
    b.query_timestamp < a.query_timestamp ∨
    (b.query_timestamp = a.query_timestamp ∧ b.id < a.id))

/-! Concrete documents and rows the instance theorems evaluate on. -/

/-- The single-token document of the spec date example. -/
def docOneDate : Node :=
  .elem "html" [] [.elem "p" [] [.text "hearing on 12-03-2023 was held"]]

/-- The two-token document of the spec date example. -/
def docTwoDates : Node :=
  .elem "html" []
    [.elem "p" [] [.text "filed 01/01/2022 "], .elem "p" [] [.text "next 15/06/2023 "]]

/-- The single-text-block document of the spec party example. -/
def docPartiesOne : Node :=
  .elem "html" [] [.elem "table" [] [.elem "tr" [] [.elem "td" []
    [.text "Plaintiff Name vs. Defendant Name"]]]]

/-- A document with two separate separator blocks; only the first counts. -/
def docPartiesTwo : Node :=
  .elem "html" []
    [ .elem "tr" [] [.elem "td" [] [.text "Alpha Corp vs Beta Ltd"]]
    , .elem "tr" [] [.elem "td" [] [.text "Gamma vs Delta"]] ]

/-- A stored row with the smaller identifier of a timestamp tie. -/
def histRowA : StoredQuery :=
  { id := 1, case_type := "W.P.(C)", case_number := "1001", filing_year := "2020"
    query_timestamp := 10, raw_response := "", parsed_data := "null", status := "success" }

/-- A stored row with the larger identifier of the same timestamp. -/
def histRowB : StoredQuery :=
  { id := 2, case_type := "CRL", case_number := "1002", filing_year := "2021"
    query_timestamp := 10, raw_response := "", parsed_data := "null", status := "error" }

/-- A table state with one timestamp tie. -/
def histDb : List StoredQuery := [histRowA, histRowB]

/-- A listing of that state in identifier ascending order, which the query
may legally produce since only the timestamp is ordered. -/
def histOutAsc : List HistEntry := [histProj histRowA, histProj histRowB]

/-! Supporting lemmas: occurrence of a pattern is preserved when the text
grows on either side, and the string of a descendant element occurs inside
the raw text of the whole document. -/

/-- A head match survives extension of the text on the right. -/
theorem headMatches_extend (pat : List Char) :
    ∀ l y : List Char, headMatches pat l = true → headMatches pat (l ++ y) = true := by
  induction pat with
  | nil => intro l y _; rfl
  | cons a pa ih =>
    intro l y h
    cases l with
    | nil => simp [headMatches] at h
    | cons b lb =>
      simp only [headMatches, Bool.and_eq_true] at h ⊢
      exact ⟨h.1, ih lb y h.2⟩

/-- The empty pattern occurs in every text. -/
theorem containsSeq_nil_pat : ∀ l : List Char, containsSeq [] l = true := by
  intro l
  cases l with
  | nil => rfl
  | cons c r => simp [containsSeq, headMatches]

/-- An occurrence survives extension of the text on the left. -/
theorem containsSeq_append_right (pat x y : List Char)
    (h : containsSeq pat y = true) : containsSeq pat (x ++ y) = true := by
  induction x with
  | nil => simpa using h
  | cons a x ih =>
    simp only [List.cons_append, containsSeq, Bool.or_eq_true]
    exact Or.inr ih

/-- An occurrence survives extension of the text on the right. -/
theorem containsSeq_append_left (pat x y : List Char)
    (h : containsSeq pat x = true) : containsSeq pat (x ++ y) = true := by
  induction x with
  | nil =>
    cases pat with
    | nil => exact containsSeq_nil_pat y
    | cons a pa => simp [containsSeq, headMatches] at h
  | cons a x ih =>
    simp only [containsSeq, Bool.or_eq_true] at h
    rcases h with h | h
    · simp only [List.cons_append, containsSeq, Bool.or_eq_true]
      exact Or.inl (headMatches_extend pat (a :: x) y h)
    · simp only [List.cons_append, containsSeq, Bool.or_eq_true]
      exact Or.inr (ih h)

/-- An occurrence inside a middle segment is an occurrence in the whole. -/
theorem containsSeq_of_middle (pat pre b post : List Char)
    (h : containsSeq pat b = true) : containsSeq pat (pre ++ b ++ post) = true := by
  rw [List.append_assoc]
  exact containsSeq_append_right pat pre (b ++ post) (containsSeq_append_left pat b post h)

/-- A separator occurrence inside a middle segment is one in the whole. -/
theorem vsTextMatch_of_middle (pre b post : List Char)
    (h : vsTextMatch b = true) : vsTextMatch (pre ++ b ++ post) = true := by
  simp only [vsTextMatch, lowerL, List.map_append, Bool.or_eq_true] at h ⊢
  rcases h with h | h
  · exact Or.inl (containsSeq_of_middle _ _ _ _ h)
  · exact Or.inr (containsSeq_of_middle _ _ _ _ h)

/-- The string of a node occurs inside its raw text. -/
theorem nodeString_sub : (n : Node) → (s : String) → nodeString n = some s →
    ∃ pre post, rawText n = pre ++ s.toList ++ post
  | .text t, s, h => by
    simp only [nodeString, Option.some.injEq] at h
    exact ⟨[], [], by simp [rawText, h]⟩
  | .elem t a [c], s, h => by
    rw [nodeString] at h
    obtain ⟨pre, post, hp⟩ := nodeString_sub c s h
    exact ⟨pre, post, by simp [rawText, rawTextList, hp]⟩
  | .elem t a [], s, h => by simp [nodeString] at h
  | .elem t a (c1 :: c2 :: cs), s, h => by simp [nodeString] at h

mutual
/-- The raw text of a descendant occurs inside the raw text of the node. -/
theorem rawText_desc (n : Node) (p : Node × Node) (h : p ∈ descendantsP n) :
    ∃ pre post, rawText n = pre ++ rawText p.1 ++ post :=
  match n with
  | .text _ => by simp [descendantsP] at h
  | .elem t a cs => by
    rw [descendantsP] at h
    obtain ⟨pre, post, hp⟩ := rawText_desc_list (.elem t a cs) cs p h
    exact ⟨pre, post, by rw [rawText]; exact hp⟩

/-- The raw text of a node reached from a child list occurs inside the
concatenated raw text of that list. -/
theorem rawText_desc_list (q : Node) (cs : List Node) (p : Node × Node)
    (h : p ∈ descendantsPList q cs) :
    ∃ pre post, rawTextList cs = pre ++ rawText p.1 ++ post :=
  match cs with
  | [] => by simp [descendantsPList] at h
  | c :: r => by
    rw [descendantsPList] at h
    rcases List.mem_cons.mp h with heq | hmem
    · exact ⟨[], rawTextList r, by rw [heq]; simp [rawTextList]⟩
    · rcases List.mem_append.mp hmem with h1 | h2
      · obtain ⟨pre, post, hp⟩ := rawText_desc c p h1
        exact ⟨pre, post ++ rawTextList r, by simp [rawTextList, hp]⟩
      · obtain ⟨pre, post, hp⟩ := rawText_desc_list q r p h2
        exact ⟨rawText c ++ pre, post, by simp [rawTextList, hp]⟩
end

/-- When the raw text of the document holds no separator occurrence, the
party search finds no candidate element. -/
theorem partyElems_nil (root : Node) (h : vsTextMatch (rawText root) = false) :
    partyElems root = [] := by
  unfold partyElems
  rw [List.filter_eq_nil_iff]
  intro p hp hc
  obtain ⟨el, par⟩ := p
  cases hel : el with
  | text s => rw [hel] at hc; simp [isCandElem] at hc
  | elem t a cs =>
    rw [hel] at hc
    rcases hns : nodeString (Node.elem t a cs) with _ | s
    · simp [isCandElem, hns] at hc
    · simp only [isCandElem, hns, Bool.and_eq_true] at hc
      obtain ⟨pre1, post1, h1⟩ := nodeString_sub _ s hns
      rw [hel] at hp
      obtain ⟨pre2, post2, h2⟩ := rawText_desc root ((Node.elem t a cs), par) hp
      have hm : vsTextMatch (rawText (Node.elem t a cs)) = true := by
        rw [h1]; exact vsTextMatch_of_middle pre1 _ post1 hc.2
      have : vsTextMatch (rawText root) = true := by
        rw [h2]; exact vsTextMatch_of_middle pre2 _ post2 hm
      rw [h] at this
      exact Bool.false_ne_true this

/-! Claim theorems. -/

/-- Claim C1: for a lookup request with all three fields present and
non-empty, the search handler writes exactly one log row whose case fields
equal the request values, whose status is success exactly when the fetch
value lacks the error key, whatever the fetch outcome was. -/
theorem search_logs_exactly_one (ct cn fy : String) (f : FetchResult)
    (h1 : ct ≠ "") (h2 : cn ≠ "") (h3 : fy ≠ "") :
    (search_case ⟨some ct, some cn, some fy⟩ f).logWrites =
      [{ case_type := ct, case_number := cn, filing_year := fy, raw_response := ""
         parsed_data := f
         status := if fetchHasErrorKey f then "error" else "success" }] := by
  simp [search_case, pyTruthy, h1, h2, h3]

/-- Instance of claim C1 at a concrete failing lookup. -/
theorem search_logs_exactly_one_witness :
    (search_case ⟨some "W.P.(C)", some "1234", some "2023"⟩ (.err "timeout")).logWrites =
      [{ case_type := "W.P.(C)", case_number := "1234", filing_year := "2023"
         raw_response := "", parsed_data := .err "timeout", status := "error" }] :=
  search_logs_exactly_one "W.P.(C)" "1234" "2023" (.err "timeout")
    (by decide) (by decide) (by decide)

/-- Claim C2: a lookup request with a missing or empty field gets a 400
error response, no browser automation and no log write. -/
theorem search_invalid_rejected (req : SearchRequest) (f : FetchResult)
    (h : (pyTruthy req.case_type && pyTruthy req.case_number &&
          pyTruthy req.filing_year) = false) :
    (search_case req f).httpStatus = 400 ∧
    isErrorBody (search_case req f).body = true ∧
    (search_case req f).browserUsed = false ∧
    (search_case req f).logWrites = [] := by
  simp [search_case, h, isErrorBody]

/-- Instance of claim C2 at a request with an empty case number. -/
theorem search_invalid_rejected_witness :
    (search_case ⟨some "W.P.(C)", some "", some "2023"⟩ (.err "unused")).httpStatus = 400 ∧
    isErrorBody (search_case ⟨some "W.P.(C)", some "", some "2023"⟩ (.err "unused")).body = true ∧
    (search_case ⟨some "W.P.(C)", some "", some "2023"⟩ (.err "unused")).browserUsed = false ∧
    (search_case ⟨some "W.P.(C)", some "", some "2023"⟩ (.err "unused")).logWrites = [] :=
  search_invalid_rejected ⟨some "W.P.(C)", some "", some "2023"⟩ (.err "unused") (by decide)

/-- Claim C7 as stated fails: a valid request whose fetch returns an error
value gets the error object back with status 200, not 400 or 500. -/
theorem search_error_status_cex :
    isErrorBody (search_case ⟨some "W.P.(C)", some "7777", some "2021"⟩ (.err "Timeout")).body = true ∧
    (search_case ⟨some "W.P.(C)", some "7777", some "2021"⟩ (.err "Timeout")).httpStatus = 200 ∧
    ¬((search_case ⟨some "W.P.(C)", some "7777", some "2021"⟩ (.err "Timeout")).httpStatus = 400 ∨
      (search_case ⟨some "W.P.(C)", some "7777", some "2021"⟩ (.err "Timeout")).httpStatus = 500) := by
  decide

/-- Claim C7 amended: a failing lookup always carries a JSON error body,
with status 400 when validation failed and status 200 when the fetch
reported the failure; the handler passes the fetched error object to the
response with the default code. -/
theorem search_failure_response (req : SearchRequest) (f : FetchResult)
    (h : isErrorBody (search_case req f).body = true) :
    ((search_case req f).httpStatus = 400 ∧
      (search_case req f).body = .errJson "All fields are required") ∨
    ((search_case req f).httpStatus = 200 ∧ fetchHasErrorKey f = true) := by
  by_cases hc : (pyTruthy req.case_type && pyTruthy req.case_number &&
      pyTruthy req.filing_year) = true
  · right
    cases f with
    | ok d => simp [search_case, hc, isErrorBody] at h
    | err m => simp [search_case, hc, fetchHasErrorKey]
  · left
    rw [Bool.not_eq_true] at hc
    simp [search_case, hc]

/-- Instance of amended claim C7 at a failing fetch. -/
theorem search_failure_response_witness :
    ((search_case ⟨some "CRL", some "12", some "2019"⟩ (.err "element not found")).httpStatus = 400 ∧
      (search_case ⟨some "CRL", some "12", some "2019"⟩ (.err "element not found")).body =
        .errJson "All fields are required") ∨
    ((search_case ⟨some "CRL", some "12", some "2019"⟩ (.err "element not found")).httpStatus = 200 ∧
      fetchHasErrorKey (.err "element not found") = true) :=
  search_failure_response ⟨some "CRL", some "12", some "2019"⟩ (.err "element not found")
    (by decide)

/-- Claim C10: every row the search handler writes has an empty raw
response; no page source is captured into the persisted record. -/
theorem search_raw_response_empty (req : SearchRequest) (f : FetchResult) (r : QueryWrite)
    (h : r ∈ (search_case req f).logWrites) : r.raw_response = "" := by
  by_cases hc : (pyTruthy req.case_type && pyTruthy req.case_number &&
      pyTruthy req.filing_year) = true
  · simp only [search_case, hc, if_true, List.mem_singleton] at h
    rw [h]
  · rw [Bool.not_eq_true] at hc
    simp [search_case, hc] at h

/-- Instance of claim C10 at a concrete successful lookup. -/
theorem search_raw_response_empty_witness :
    QueryWrite.raw_response
      { case_type := "W.P.(C)", case_number := "55", filing_year := "2022"
        raw_response := ""
        parsed_data := .ok { parties := [], filing_date := none, next_hearing_date := none
                             orders := [], status := "Active" }
        status := "success" } = "" :=
  search_raw_response_empty ⟨some "W.P.(C)", some "55", some "2022"⟩
    (.ok { parties := [], filing_date := none, next_hearing_date := none
           orders := [], status := "Active" })
    { case_type := "W.P.(C)", case_number := "55", filing_year := "2022"
      raw_response := ""
      parsed_data := .ok { parties := [], filing_date := none, next_hearing_date := none
                           orders := [], status := "Active" }
      status := "success" }
    (by decide)

/-- Claim C8: with a non-empty url parameter, the relay answers with an
error object exactly when the remote status is not the success code, writes
no log row, and on success returns the body as an attachment named from the
url path with the generic fallback. -/
theorem download_relay_behavior (u : String) (remote : RemoteResponse) (h : u ≠ "") :
    (isDownloadErr (download_pdf (some u) remote).body = true ↔ remote.status_code ≠ 200) ∧
    (download_pdf (some u) remote).logWrites = [] ∧
    (remote.status_code = 200 →
      (download_pdf (some u) remote).body = .attachment (relayFilename u) remote.content) := by
  by_cases hs : remote.status_code = 200 <;>
    simp [download_pdf, h, hs, isDownloadErr]

/-- Instance of claim C8 at a failing remote fetch. -/
theorem download_relay_behavior_witness :
    (isDownloadErr (download_pdf (some "https://delhihighcourt.nic.in/orders/final.pdf")
        ⟨404, []⟩).body = true ↔ (404 : Nat) ≠ 200) ∧
    (download_pdf (some "https://delhihighcourt.nic.in/orders/final.pdf")
        ⟨404, []⟩).logWrites = [] ∧
    ((404 : Nat) = 200 →
      (download_pdf (some "https://delhihighcourt.nic.in/orders/final.pdf") ⟨404, []⟩).body =
        .attachment (relayFilename "https://delhihighcourt.nic.in/orders/final.pdf") []) :=
  download_relay_behavior "https://delhihighcourt.nic.in/orders/final.pdf" ⟨404, []⟩ (by decide)

/-- Claim C9: whenever a driver was constructed the client shuts it down
before returning, on success and on every raising step; when construction
fails the client returns the fixed initialization error without reaching
navigation. -/
theorem fetch_driver_lifecycle (env : BrowserEnv) :
    ((fetch_case_data env).driverCreated = true → (fetch_case_data env).driverQuit = true) ∧
    (env.setupOk = false →
      (fetch_case_data env).result = .err "Failed to initialize browser" ∧
      (fetch_case_data env).navigated = false) := by
  by_cases hs : env.setupOk = true
  · rcases hn : env.navigation with m | u <;>
      rcases hf : env.formFill with m2 | u2 <;>
      rcases hsub : env.submit with m3 | u3 <;>
      simp [fetch_case_data, hs, hn, hf, hsub]
  · rw [Bool.not_eq_true] at hs
    simp [fetch_case_data, hs]

/-- Instance of claim C9 at a failing driver construction. -/
theorem fetch_driver_lifecycle_witness :
    (fetch_case_data ⟨false, .ok (), .ok (), false, .ok (), .text ""⟩).result =
        .err "Failed to initialize browser" ∧
    (fetch_case_data ⟨false, .ok (), .ok (), false, .ok (), .text ""⟩).navigated = false :=
  (fetch_driver_lifecycle ⟨false, .ok (), .ok (), false, .ok (), .text ""⟩).2 rfl

/-- Claim C4: the positional date heuristic over the token list of the full
visible text: the first token, when any exists, becomes the filing date;
the last token, when at least two exist, becomes the next hearing date;
with no token both stay empty, and with a single token the next hearing
date stays empty. -/
theorem dates_first_and_last (root : Node) :
    (datesS root = [] →
      (parse_case_details root).filing_date = none ∧
      (parse_case_details root).next_hearing_date = none) ∧
    (datesS root ≠ [] →
      (parse_case_details root).filing_date = (datesS root).head?) ∧
    (2 ≤ (datesS root).length →
      (parse_case_details root).next_hearing_date = (datesS root).getLast?) ∧
    ((datesS root).length = 1 →
      (parse_case_details root).next_hearing_date = none) := by
  rcases hd : datesS root with _ | ⟨d, _ | ⟨e, ds⟩⟩ <;>
    simp [parse_case_details, hd]

/-- Instance of claim C4 at the example documents: one token fills only the
filing date, two tokens fill both in document order. -/
theorem dates_first_and_last_witness :
    (parse_case_details docOneDate).filing_date = some "12-03-2023" ∧
    (parse_case_details docOneDate).next_hearing_date = none ∧
    (parse_case_details docTwoDates).filing_date = some "01/01/2022" ∧
    (parse_case_details docTwoDates).next_hearing_date = some "15/06/2023" :=
  ⟨(dates_first_and_last docOneDate).2.1 (by decide),
   (dates_first_and_last docOneDate).2.2.2 (by decide),
   (dates_first_and_last docTwoDates).2.1 (by decide),
   (dates_first_and_last docTwoDates).2.2.1 (by decide)⟩

/-- Claim C3: the party list comes from the first matching text-bearing
element: the example block yields the two trimmed parties, a second
matching block later in the document is ignored, and in general the loop
resolves the first candidate with a truthy parent and a matching parent
text, whatever follows it. -/
theorem parties_first_match :
    (parse_case_details docPartiesOne).parties = ["Plaintiff Name", "Defendant Name"] ∧
    (parse_case_details docPartiesTwo).parties = ["Alpha Corp", "Beta Ltd"] ∧
    ∀ (el par : Node) (rest : List (Node × Node)),
      nodeTruthy par = true →
      (containsSeq "vs".toList (lowerL (strippedText par)) ||
        containsSeq "v/s".toList (lowerL (strippedText par))) = true →
      partyLoop ((el, par) :: rest) =
        (splitVs (strippedText par)).filterMap
          (fun p => let q := pyStrip p; if q.isEmpty then none else some (String.mk q)) := by
  refine ⟨by decide, by decide, ?_⟩
  intro el par rest ht hm
  simp only [partyLoop, ht, if_true]
  rw [if_pos hm]

/-- Instance of the general part of claim C3: the first candidate decides
the parties and the rest of the candidate list is never consulted. -/
theorem parties_first_match_witness :
    partyLoop [(Node.text "A vs B", Node.elem "td" [] [Node.text "A vs B"]),
               (Node.text "C vs D", Node.elem "td" [] [Node.text "C vs D"])] = ["A", "B"] :=
  parties_first_match.2.2 (Node.text "A vs B") (Node.elem "td" [] [Node.text "A vs B"])
    [(Node.text "C vs D", Node.elem "td" [] [Node.text "C vs D"])] (by decide) (by decide)

/-- Claim C5: a document whose raw text holds no separator occurrence, no
date token and no pdf anchor parses to the empty record with the constant
Active status, and every extraction result carries that constant status
whatever the page holds. -/
theorem extractor_empty_and_status (root : Node)
    (hvs : vsTextMatch (rawText root) = false)
    (hd : datesS root = [])
    (hpdf : pdfLinkElems root = []) :
    parse_case_details root =
      { parties := [], filing_date := none, next_hearing_date := none
        orders := [], status := "Active" } ∧
    ∀ d : Node, (parse_case_details d).status = "Active" := by
  constructor
  · have hp := partyElems_nil root hvs
    simp [parse_case_details, partiesOf, hp, partyLoop, hd, ordersOf, hpdf]
  · intro d
    simp [parse_case_details]

/-- Instance of claim C5 at a plain document with none of the patterns. -/
theorem extractor_empty_and_status_witness :
    parse_case_details (.elem "html" [] [.elem "p" [] [.text "hello world"]]) =
      { parties := [], filing_date := none, next_hearing_date := none
        orders := [], status := "Active" } :=
  (extractor_empty_and_status (.elem "html" [] [.elem "p" [] [.text "hello world"]])
    (by decide) rfl rfl).1

/-- Claim C6 as stated fails: the query orders by timestamp alone, so a
state with a timestamp tie can legally be listed with the smaller
identifier first, and no reordering of it is both tie-broken by identifier
descending and equal to that listing. -/
theorem history_tie_cex :
    get_history histDb histOutAsc ∧
    ¬ ∃ ord : List StoredQuery, ord.Perm histDb ∧ idTieOrdered ord ∧
        histOutAsc = (ord.take 50).map histProj := by
  constructor
  · refine ⟨histDb, List.Perm.refl _, ?_, rfl⟩
    unfold tsSorted histDb
    decide
  · rintro ⟨ord, hperm, htie, hout⟩
    have hlen : ord.length = 2 := by
      have hx := hperm.length_eq
      simpa [histDb] using hx
    rcases ord with _ | ⟨a, _ | ⟨b, _ | ⟨c, t⟩⟩⟩
    · simp at hlen
    · simp at hlen
    · have ht50 : ([a, b] : List StoredQuery).take 50 = [a, b] :=
        List.take_of_length_le (by simp)
      rw [ht50] at hout
      have hpa : histProj histRowA = histProj a := by
        have hx := congrArg (fun l => l.head?) hout
        simpa [histOutAsc] using hx
      have hpb : histProj histRowB = histProj b := by
        have hx := congrArg (fun l => l.getLast?) hout
        simpa [histOutAsc, List.getLast?] using hx
      have ha : a ∈ histDb := hperm.subset (by simp)
      have hb : b ∈ histDb := hperm.subset (by simp)
      have ha2 : a = histRowA := by
        rcases (by simpa [histDb] using ha : a = histRowA ∨ a = histRowB) with h | h
        · exact h
        · rw [h] at hpa
          exact absurd hpa (by decide)
      have hb2 : b = histRowB := by
        rcases (by simpa [histDb] using hb : b = histRowA ∨ b = histRowB) with h | h
        · rw [h] at hpb
          exact absurd hpb (by decide)
        · exact h
      subst ha2
      subst hb2
      unfold idTieOrdered at htie
      have hrel := (List.pairwise_cons.mp htie).1 histRowB (by simp)
      revert hrel
      decide
    · simp at hlen

/-- Claim C6 amended: the history listing has at most fifty entries, each
the five-column summary, in timestamp descending order; the relative order
of rows with equal timestamps is not fixed by the query. -/
theorem history_bounded_and_sorted (db : List StoredQuery) (out : List HistEntry)
    (h : get_history db out) :
    out.length ≤ 50 ∧ out.Pairwise (fun a b => b.timestamp ≤ a.timestamp) := by
  obtain ⟨ord, hperm, hsort, hout⟩ := h
  subst hout
  constructor
  · simp only [List.length_map, List.length_take]
    exact Nat.min_le_left _ _
  · unfold tsSorted at hsort
    have h1 : (ord.take 50).Pairwise
        (fun a b => b.query_timestamp ≤ a.query_timestamp) :=
      hsort.sublist (List.take_sublist _ _)
    exact h1.map histProj (fun a b hab => hab)

/-- Instance of amended claim C6 at a one-row table. -/
theorem history_bounded_and_sorted_witness :
    ([histProj histRowA] : List HistEntry).length ≤ 50 ∧
    ([histProj histRowA] : List HistEntry).Pairwise (fun a b => b.timestamp ≤ a.timestamp) :=
  history_bounded_and_sorted [histRowA] [histProj histRowA]
    ⟨[histRowA], List.Perm.refl _, by unfold tsSorted; exact List.pairwise_singleton _ _, rfl⟩
